import Mathlib

/-!
Verification development for the color-management core of the repository:
the AnySpace three-stage conversion pipeline with its transform cache
(src/ui/widget/spinbutton.cpp, second translation unit), the Manager
registry (src/colors/manager.cpp) and the Lab color space
(src/colors/spaces/lab.cpp).

Channel value vectors (std::vector of double in the source) are embedded as
lists: over the reals for the numeric Lab conversions, and over the
rationals for the CSS serialization layer, whose arithmetic is exact.
-/

namespace Colors

/-- Modelled from the spec: the external CMS Profile object, offering
checksum and identity comparison (the class Colors::CMS::Profile is not
among the shown sources). Equality of profiles is structural. -/
structure Profile where
  checksum : String
  id : String
deriving DecidableEq, Repr

/-- Rendering intents, as used by AnySpace::profileToProfile. -/
inductive RenderingIntent
  | UNKNOWN
  | PERCEPTUAL
  | RELATIVE_COLORIMETRIC
  | SATURATION
  | ABSOLUTE_COLORIMETRIC
deriving DecidableEq, Repr

/-- Modelled from the spec: the intentIds table mapping each rendering
intent to a short tag appended to the destination profile checksum to form
the transform cache key (the table itself is not among the shown sources;
only its use in profileToProfile is). -/
def intentIds : RenderingIntent → String
  | RenderingIntent.UNKNOWN => "u"
  | RenderingIntent.PERCEPTUAL => "p"
  | RenderingIntent.RELATIVE_COLORIMETRIC => "r"
  | RenderingIntent.SATURATION => "s"
  | RenderingIntent.ABSOLUTE_COLORIMETRIC => "a"

/-- Modelled from the spec: the external CMS Transform object. Its
do_transform reports failure through a boolean and, per the spec, stage-2
failure stems from transform construction, so an applied transform that
fails is modelled as leaving the values untouched (Option none). -/
structure Transform where
  tf : List ℝ → Option (List ℝ)

/-- The per-space transform cache: destination-checksum-plus-intent key to
the lazily constructed transform, null (none) when construction failed. -/
abbrev TransformCache := List (String × Option Transform)

/-- Modelled from the spec: the external gamut-checker object returned by
Transform::create_for_cms_checker. -/
structure GamutChecker where
  check_gamut : List ℝ → Bool

/-- The per-space gamut-checker cache, keyed by destination profile id. -/
abbrev GamutCache := List (String × GamutChecker)

/-- Space type tags (the Type enum of the source; its header is not among
the shown sources, the constructor set follows the spec). -/
inductive SpaceType
  | RGB
  | NamedColor
  | CMYK
  | Gray
  | HSL
  | HSLUV
  | HSV
  | LAB
  | LINEAR_RGB
  | LCH
  | LUV
  | OKHSL
  | OKLAB
  | OKLCH
  | XYZ
  | CMS
deriving DecidableEq, Repr

/-- The abstract color space AnySpace: a type tag, a stable name, the fixed
component count, the associated ICC profile, the configured rendering
intent, and the two virtual encode and decode hooks of the three-stage
conversion protocol (default identity in the base class). The mutable
per-instance caches are passed explicitly to the operations. -/
structure AnySpace where
  typ : SpaceType
  name : String
  componentCount : Nat
  profile : Profile
  intent : RenderingIntent
  spaceToProfile : List ℝ → List ℝ
  profileToSpace : List ℝ → List ℝ

/-- Outcome of profileToProfile and convert: the boolean result, the value
vector io after the call, the transform cache after the call, and how many
times the CMS transform factory was invoked during the call. -/
structure XformResult where
  ok : Bool
  values : List ℝ
  transforms : TransformCache
  factoryCalls : Nat

/-- AnySpace::isValidData: the vector length must equal the component
count, or the component count plus one (trailing alpha). -/
def AnySpace.isValidData (s : AnySpace) (values : List ℝ) : Bool :=
  values.length == s.componentCount || values.length == s.componentCount + 1

/-- Intent selection of AnySpace::profileToProfile: first ours, then
theirs, finally the PERCEPTUAL default. -/
def AnySpace.resolvedIntent (s to_space : AnySpace) : RenderingIntent :=
  let intent0 := s.intent
  let intent1 := if intent0 = RenderingIntent.UNKNOWN then to_space.intent else intent0
  if intent1 = RenderingIntent.UNKNOWN then RenderingIntent.PERCEPTUAL else intent1

/-- AnySpace::profileToProfile: no-op success when the two profiles are
equal; otherwise resolve the rendering intent, look the transform up in the
cache under destination checksum plus intent tag, on a miss build it via
the factory and store the result even when construction failed, then apply
the cached transform, failing when it is null. -/
def AnySpace.profileToProfile (s : AnySpace)
    (factory : Profile → Profile → RenderingIntent → Option Transform)
    (cache : TransformCache) (io : List ℝ) (to_space : AnySpace) : XformResult :=
  if to_space.profile = s.profile then
    ⟨true, io, cache, 0⟩
  else
    let intent := s.resolvedIntent to_space
    let to_profile_id := to_space.profile.checksum ++ intentIds intent
    let transforms :=
      if (cache.lookup to_profile_id).isSome then cache
      else (to_profile_id, factory s.profile to_space.profile intent) :: cache
    let calls := if (cache.lookup to_profile_id).isSome then 0 else 1
    match transforms.lookup to_profile_id with
    | some (some tr) =>
      match tr.tf io with
      | some out => ⟨true, out, transforms, calls⟩
      | none => ⟨false, io, transforms, calls⟩
    | some none => ⟨false, io, transforms, calls⟩
    | none => ⟨false, io, transforms, calls⟩

/-- AnySpace::convert: stage 1 spaceToProfile on the source space, stage 2
profileToProfile, then on success stage 3 profileToSpace on the
destination space; on stage-2 failure the values are decoded back through
the source space profileToSpace and false is returned. -/
def AnySpace.convert (s : AnySpace)
    (factory : Profile → Profile → RenderingIntent → Option Transform)
    (cache : TransformCache) (io : List ℝ) (to_space : AnySpace) : XformResult :=
  let io1 := s.spaceToProfile io
  let r := s.profileToProfile factory cache io1 to_space
  if r.ok then ⟨true, to_space.profileToSpace r.values, r.transforms, r.factoryCalls⟩
  else ⟨false, s.profileToSpace r.values, r.transforms, r.factoryCalls⟩

/-- AnySpace::outOfGamut: trivially false when both spaces share one
profile; otherwise look up or build a gamut checker keyed by the
destination profile id alone and apply it. -/
def AnySpace.outOfGamut (s : AnySpace)
    (checkerFactory : Profile → Profile → GamutChecker)
    (cache : GamutCache) (input : List ℝ) (to_space : AnySpace) : Bool × GamutCache :=
  if to_space.profile = s.profile then
    (false, cache)
  else
    let to_profile_id := to_space.profile.id
    let checkers :=
      if (cache.lookup to_profile_id).isSome then cache
      else (to_profile_id, checkerFactory s.profile to_space.profile) :: cache
    match checkers.lookup to_profile_id with
    | some checker => (checker.check_gamut input, checkers)
    | none => (false, checkers)

/-- The Manager registry: the ordered list of registered spaces. -/
structure Manager where
  spaces : List AnySpace

/-- Manager::find by type: first registered space with the given type. -/
def Manager.find (m : Manager) (t : SpaceType) : Option AnySpace :=
  m.spaces.find? fun v => v.typ == t

/-- Manager::find by name: first registered space with the given name. -/
def Manager.findName (m : Manager) (nm : String) : Option AnySpace :=
  m.spaces.find? fun v => v.name == nm

/-- Manager::addSpace: throws (error) when a space of the same type is
already registered, otherwise appends the space to the list. -/
def Manager.addSpace (m : Manager) (space : AnySpace) : Except String Manager :=
  if (m.find space.typ).isSome then
    Except.error "Can not add the same color space twice."
  else
    Except.ok ⟨m.spaces ++ [space]⟩

/-! Lab color space numerics (src/colors/spaces/lab.cpp), over the reals. -/

/-- Modelled from the spec: the SCALE_UP macro mapping a normalized 0..1
value onto the range lo..hi (the macro definition is not among the shown
sources; the spec fixes scaleUp as the map onto 0..100 and -128..128 and
scaleDown as its exact inverse). -/
def SCALE_UP {K : Type} [Field K] (v lo hi : K) : K :=
  v * (hi - lo) + lo

/-- Modelled from the spec: the SCALE_DOWN macro, exact inverse of
SCALE_UP, mapping a lo..hi value back to 0..1. -/
def SCALE_DOWN {K : Type} [Field K] (v lo hi : K) : K :=
  (v - lo) / (hi - lo)

/-- Luma scale constant of lab.cpp. -/
def LUMA_SCALE : ℝ := 100

/-- Internal chroma scale minimum of lab.cpp (Inkscape range 256). -/
def MIN_SCALE : ℝ := -128

/-- Internal chroma scale maximum of lab.cpp. -/
def MAX_SCALE : ℝ := 128

/-- Modelled from the spec: the three D65 illuminant white point
coordinates (the constant array is not among the shown sources; the spec
names the D65 white point, whose standard coordinates these are). -/
def illuminant_d65_0 : ℝ := 0.95047

/-- Second D65 white point coordinate, see illuminant_d65_0. -/
def illuminant_d65_1 : ℝ := 1

/-- Third D65 white point coordinate, see illuminant_d65_0. -/
def illuminant_d65_2 : ℝ := 1.08883

namespace Lab

/-- Lab::scaleUp: channel 0 to 0..100, channels 1 and 2 to -128..128. -/
noncomputable def scaleUp : List ℝ → List ℝ
  | v0 :: v1 :: v2 :: rest =>
    SCALE_UP v0 0 LUMA_SCALE :: SCALE_UP v1 MIN_SCALE MAX_SCALE ::
      SCALE_UP v2 MIN_SCALE MAX_SCALE :: rest
  | io => io

/-- Lab::scaleDown: channel 0 from 0..100, channels 1 and 2 from -128..128
back to 0..1. -/
noncomputable def scaleDown : List ℝ → List ℝ
  | v0 :: v1 :: v2 :: rest =>
    SCALE_DOWN v0 0 LUMA_SCALE :: SCALE_DOWN v1 MIN_SCALE MAX_SCALE ::
      SCALE_DOWN v2 MIN_SCALE MAX_SCALE :: rest
  | io => io

/-- Per-channel loop body of Lab::toXYZ: cube the value if the cube
exceeds 0.008856, else apply the linear segment, before the illuminant
factor. -/
noncomputable def xyzChannel (f : ℝ) : ℝ :=
  if f ^ (3 : ℕ) > 0.008856 then f ^ (3 : ℕ) else (f - 16.0 / 116.0) / 7.787

/-- Lab::toXYZ: scale up, build the three f-values from luma and chroma,
then linearize each channel and apply the D65 white point. -/
noncomputable def toXYZ (io : List ℝ) : List ℝ :=
  match scaleUp io with
  | l :: a :: b :: rest =>
    let y := (l + 16.0) / 116.0
    let f0 := a / 500.0 + y
    let f2 := y - b / 200.0
    xyzChannel f0 * illuminant_d65_0 :: xyzChannel y * illuminant_d65_1 ::
      xyzChannel f2 * illuminant_d65_2 :: rest
  | out => out

/-- Luma branch of Lab::fromXYZ: the CIE lightness from the Y channel,
with the 0.008856 threshold and the 0.33333 exponent of the source. -/
noncomputable def lumaChannel (t : ℝ) : ℝ :=
  if t > 0.008856 then 116 * t ^ (0.33333 : ℝ) - 16 else 903.3 * t

/-- Per-channel loop body of Lab::fromXYZ: cube-root segment (exponent
0.33333 in the source) above the 0.008856 threshold, linear segment
below. -/
noncomputable def labChannel (t : ℝ) : ℝ :=
  if t > 0.008856 then t ^ (0.33333 : ℝ) else 7.787 * t + 16.0 / 116.0

/-- Lab::fromXYZ: divide out the D65 white point, compute the lightness
from Y, map each channel through the inverse linearization, recombine into
L, a, b and scale down. -/
noncomputable def fromXYZ (io : List ℝ) : List ℝ :=
  match io with
  | ix :: iy :: iz :: rest =>
    let x := ix / illuminant_d65_0
    let y := iy / illuminant_d65_1
    let z := iz / illuminant_d65_2
    let l := lumaChannel y
    let fx := labChannel x
    let fy := labChannel y
    let fz := labChannel z
    scaleDown (l :: 500 * (fx - fy) :: 200 * (fy - fz) :: rest)
  | out => out

end Lab

/-! Lab CSS serialization (src/colors/spaces/lab.cpp), over the rationals:
the CSS text is abstracted to the ordered list of numeric arguments of the
lab() functional notation, separators and digit rendering being the
responsibility of the printer and parser helpers that are not among the
shown sources. -/

/-- A CSS functional-notation color value: function name and the ordered
numeric arguments. -/
structure CssFunc where
  name : String
  args : List ℚ
deriving DecidableEq, Repr

/-- Lab::toString: luminance times 100, the two chroma channels scaled
onto the CSS -125..125 range (not the internal -128..128 one), and the
optional trailing opacity exactly when requested and present. Modelled
from the spec at the printer level: CssFuncPrinter is not among the shown
sources and is abstracted to the emitted argument list. -/
def labToCss : List ℚ → Bool → CssFunc
  | [v0, v1, v2], _ =>
    ⟨"lab", [v0 * 100, SCALE_UP v1 (-125) 125, SCALE_UP v2 (-125) 125]⟩
  | [v0, v1, v2, v3], opacity =>
    ⟨"lab", [v0 * 100, SCALE_UP v1 (-125) 125, SCALE_UP v2 (-125) 125] ++
      (if opacity then [v3] else [])⟩
  | _, _ => ⟨"lab", []⟩

/-- State of the CSS value parser: arguments not yet consumed, output
vector built so far, and the end-of-string flag set by the last successful
append. -/
structure ParseState where
  remaining : List ℚ
  output : List ℚ
  isEnd : Bool
deriving DecidableEq, Repr

/-- Modelled from the spec: Parser::append_css_value (not among the shown
sources): consume the next numeric argument, divide it by the given scale,
append it to the output and report whether the input is exhausted; fails
when no argument is left. Separator handling is abstracted away. -/
def append_css_value (st : ParseState) (scale : ℚ) : Option ParseState :=
  match st.remaining with
  | [] => none
  | x :: rest => some ⟨rest, st.output ++ [x / scale], rest.isEmpty⟩

/-- Lab::Parser::parse: three mandatory channels at scales 100, 125, 125,
an optional opacity whose failed parse is ignored, the requirement that
the input is exhausted, and the final shift of the two chroma channels
from -1..1 to 0..1. -/
def labParseCss (args : List ℚ) : Option (List ℚ) :=
  match append_css_value ⟨args, [], false⟩ 100 with
  | none => none
  | some s1 =>
    match append_css_value s1 125 with
    | none => none
    | some s2 =>
      match append_css_value s2 125 with
      | none => none
      | some s3 =>
        let s4 := (append_css_value s3 1).getD s3
        if s4.isEnd then
          match s4.output with
          | o0 :: o1 :: o2 :: rest => some (o0 :: (o1 + 1) / 2 :: (o2 + 1) / 2 :: rest)
          | out => some out
        else none

/-! Sample instances used to exercise the theorems on concrete inputs. -/

/-- A concrete profile for examples. -/
def profileA : Profile := ⟨"ckA", "idA"⟩

/-- A second, distinct concrete profile for examples. -/
def profileB : Profile := ⟨"ckB", "idB"⟩

/-- A concrete space over profileA with identity encode and decode. -/
def spaceA : AnySpace :=
  ⟨SpaceType.RGB, "alpha", 3, profileA, RenderingIntent.UNKNOWN, id, id⟩

/-- A concrete space over profileB sharing the name of spaceA but not its
type. -/
def spaceB : AnySpace :=
  ⟨SpaceType.LAB, "alpha", 3, profileB, RenderingIntent.UNKNOWN, id, id⟩

/-- A concrete space sharing the profile of spaceA. -/
def spaceC : AnySpace :=
  ⟨SpaceType.HSL, "gamma", 3, profileA, RenderingIntent.SATURATION,
    fun io => 1 :: io, fun io => io ++ [0]⟩

/-- A transform factory whose construction always fails. -/
def failFactory : Profile → Profile → RenderingIntent → Option Transform :=
  fun _ _ _ => none

/-- A gamut checker factory reporting everything out of gamut. -/
def allOutChecker : Profile → Profile → GamutChecker :=
  fun _ _ => ⟨fun _ => true⟩

/-! Theorems. -/

/-- Stage-2 failure leaves the value vector exactly as it received it:
AnySpace::profileToProfile either succeeds or hands io back unchanged. -/
theorem profileToProfile_fail_values (s to_space : AnySpace)
    (factory : Profile → Profile → RenderingIntent → Option Transform)
    (cache : TransformCache) (io : List ℝ)
    (h : (s.profileToProfile factory cache io to_space).ok = false) :
    (s.profileToProfile factory cache io to_space).values = io := by
  revert h
  unfold AnySpace.profileToProfile
  split
  · intro h; exact absurd h (by simp)
  · intro h
    simp only at h ⊢
    split at h
    · split at h
      · exact absurd h (by simp)
      · rfl
    · rfl
    · rfl

/-- C1: if stage 2 of AnySpace::convert fails, convert returns false and
io holds the stage-1 output decoded back through the source space
profileToSpace, never a mismatched profile-space representation. -/
theorem claim1_convert_stage2_failure (s to_space : AnySpace)
    (factory : Profile → Profile → RenderingIntent → Option Transform)
    (cache : TransformCache) (io : List ℝ)
    (_hvalid : s.isValidData io = true)
    (hfail : (s.profileToProfile factory cache (s.spaceToProfile io) to_space).ok = false) :
    (s.convert factory cache io to_space).ok = false ∧
      (s.convert factory cache io to_space).values =
        s.profileToSpace (s.spaceToProfile io) := by
  have hv := profileToProfile_fail_values s to_space factory cache (s.spaceToProfile io) hfail
  unfold AnySpace.convert
  simp only [hfail, hv]
  exact ⟨rfl, rfl⟩

/-- Witness for C1 at concrete spaces with a failing transform factory. -/
theorem claim1_witness :
    spaceA.isValidData [(1 : ℝ), 0, 0] = true ∧
      (spaceA.profileToProfile failFactory [] (spaceA.spaceToProfile [(1 : ℝ), 0, 0])
        spaceB).ok = false ∧
      ((spaceA.convert failFactory [] [(1 : ℝ), 0, 0] spaceB).ok = false ∧
      (spaceA.convert failFactory [] [(1 : ℝ), 0, 0] spaceB).values =
        spaceA.profileToSpace (spaceA.spaceToProfile [(1 : ℝ), 0, 0])) := by
  refine ⟨rfl, rfl, ?_⟩
  exact claim1_convert_stage2_failure spaceA spaceB failFactory [] [(1 : ℝ), 0, 0] rfl rfl

/-- C4: for differing profiles, the rendering intent used to key the
lookup and to build the transform is the source space intent when known,
else the destination space intent when known, else PERCEPTUAL. -/
theorem claim4_intent_priority (s to_space : AnySpace)
    (factory : Profile → Profile → RenderingIntent → Option Transform)
    (cache : TransformCache) (io : List ℝ) (intent : RenderingIntent)
    (hintent : intent = (if s.intent ≠ RenderingIntent.UNKNOWN then s.intent
      else if to_space.intent ≠ RenderingIntent.UNKNOWN then to_space.intent
      else RenderingIntent.PERCEPTUAL))
    (hp : to_space.profile ≠ s.profile)
    (hmiss : cache.lookup (to_space.profile.checksum ++ intentIds intent) = none) :
    (s.profileToProfile factory cache io to_space).transforms =
      (to_space.profile.checksum ++ intentIds intent,
        factory s.profile to_space.profile intent) :: cache ∧
      (s.profileToProfile factory cache io to_space).factoryCalls = 1 := by
  have hres : s.resolvedIntent to_space = intent := by
    unfold AnySpace.resolvedIntent
    by_cases h1 : s.intent = RenderingIntent.UNKNOWN
    · by_cases h2 : to_space.intent = RenderingIntent.UNKNOWN <;> simp [h1, h2, hintent]
    · simp [h1, hintent]
  unfold AnySpace.profileToProfile
  rw [if_neg hp]
  simp only [hres, hmiss, Option.isSome_none, Bool.false_eq_true, if_false]
  constructor <;> (split <;> first | rfl | (split <;> rfl))

/-- Witness for C4: a source space with a known intent converting toward
a space over a different profile on an empty cache. -/
theorem claim4_witness :
    spaceB.profile ≠ spaceC.profile ∧
      ((spaceC.profileToProfile failFactory [] [(1 : ℝ), 0, 0] spaceB).transforms =
        (spaceB.profile.checksum ++ intentIds RenderingIntent.SATURATION,
          failFactory spaceC.profile spaceB.profile RenderingIntent.SATURATION) :: [] ∧
      (spaceC.profileToProfile failFactory [] [(1 : ℝ), 0, 0] spaceB).factoryCalls = 1) :=
  ⟨by decide,
    claim4_intent_priority spaceC spaceB failFactory [] [(1 : ℝ), 0, 0]
      RenderingIntent.SATURATION (by decide) (by decide) rfl⟩

/-- C5: when construction fails on a cache miss the null transform is
stored, the call fails, and a repeat call with the same key fails again
without invoking the factory and without touching the cache. -/
theorem claim5_negative_caching (s to_space : AnySpace)
    (factory : Profile → Profile → RenderingIntent → Option Transform)
    (cache : TransformCache) (io io2 : List ℝ)
    (hp : to_space.profile ≠ s.profile)
    (hmiss : cache.lookup
      (to_space.profile.checksum ++ intentIds (s.resolvedIntent to_space)) = none)
    (hfail : factory s.profile to_space.profile (s.resolvedIntent to_space) = none) :
    (s.profileToProfile factory cache io to_space).ok = false ∧
    (s.profileToProfile factory cache io to_space).factoryCalls = 1 ∧
    (s.profileToProfile factory cache io to_space).transforms.lookup
      (to_space.profile.checksum ++ intentIds (s.resolvedIntent to_space)) = some none ∧
    (s.profileToProfile factory
        (s.profileToProfile factory cache io to_space).transforms io2 to_space).ok = false ∧
    (s.profileToProfile factory
        (s.profileToProfile factory cache io to_space).transforms io2 to_space).factoryCalls
      = 0 ∧
    (s.profileToProfile factory
        (s.profileToProfile factory cache io to_space).transforms io2 to_space).transforms =
      (s.profileToProfile factory cache io to_space).transforms := by
  have h1 : s.profileToProfile factory cache io to_space =
      ⟨false, io,
        (to_space.profile.checksum ++ intentIds (s.resolvedIntent to_space), none)
          :: cache, 1⟩ := by
    unfold AnySpace.profileToProfile
    rw [if_neg hp]
    simp only [hmiss, Option.isSome_none, Bool.false_eq_true, if_false, hfail]
    rw [List.lookup_cons_self]
  have h2 : s.profileToProfile factory
      ((to_space.profile.checksum ++ intentIds (s.resolvedIntent to_space), none) :: cache)
      io2 to_space =
      ⟨false, io2,
        (to_space.profile.checksum ++ intentIds (s.resolvedIntent to_space), none)
          :: cache, 0⟩ := by
    unfold AnySpace.profileToProfile
    rw [if_neg hp]
    simp only [List.lookup_cons_self, Option.isSome_some, if_true]
  rw [h1, h2]
  exact ⟨rfl, rfl, List.lookup_cons_self, rfl, rfl, rfl⟩

/-- Witness for C5: two calls with an always-failing factory on concrete
spaces over distinct profiles. -/
theorem claim5_witness :
    spaceB.profile ≠ spaceA.profile ∧
      ((spaceA.profileToProfile failFactory [] [(1 : ℝ), 0, 0] spaceB).ok = false ∧
      (spaceA.profileToProfile failFactory [] [(1 : ℝ), 0, 0] spaceB).factoryCalls = 1 ∧
      (spaceA.profileToProfile failFactory [] [(1 : ℝ), 0, 0] spaceB).transforms.lookup
        (spaceB.profile.checksum ++ intentIds (spaceA.resolvedIntent spaceB)) = some none ∧
      (spaceA.profileToProfile failFactory
          (spaceA.profileToProfile failFactory [] [(1 : ℝ), 0, 0] spaceB).transforms
          [(0 : ℝ)] spaceB).ok = false ∧
      (spaceA.profileToProfile failFactory
          (spaceA.profileToProfile failFactory [] [(1 : ℝ), 0, 0] spaceB).transforms
          [(0 : ℝ)] spaceB).factoryCalls = 0 ∧
      (spaceA.profileToProfile failFactory
          (spaceA.profileToProfile failFactory [] [(1 : ℝ), 0, 0] spaceB).transforms
          [(0 : ℝ)] spaceB).transforms =
        (spaceA.profileToProfile failFactory [] [(1 : ℝ), 0, 0] spaceB).transforms) :=
  ⟨by decide,
    claim5_negative_caching spaceA spaceB failFactory [] [(1 : ℝ), 0, 0] [(0 : ℝ)]
      (by decide) rfl rfl⟩

/-- C6: between spaces sharing one profile, convert is stage 1 followed by
the destination stage 3, succeeds, leaves the cache alone and never calls
the transform factory. -/
theorem claim6_same_profile_shortcut (s to_space : AnySpace)
    (factory : Profile → Profile → RenderingIntent → Option Transform)
    (cache : TransformCache) (io : List ℝ)
    (hp : to_space.profile = s.profile) :
    s.convert factory cache io to_space =
      ⟨true, to_space.profileToSpace (s.spaceToProfile io), cache, 0⟩ := by
  simp [AnySpace.convert, AnySpace.profileToProfile, hp]

/-- Witness for C6 on two concrete spaces sharing a profile. -/
theorem claim6_witness :
    spaceC.profile = spaceA.profile ∧
      spaceA.convert failFactory [] [(1 : ℝ), 0, 0] spaceC =
        ⟨true, spaceC.profileToSpace (spaceA.spaceToProfile [(1 : ℝ), 0, 0]), [], 0⟩ :=
  ⟨rfl, claim6_same_profile_shortcut spaceA spaceC failFactory [] [(1 : ℝ), 0, 0] rfl⟩

/-- C7: outOfGamut reports false whenever the two spaces profiles compare
equal, whatever the input values. -/
theorem claim7_gamut_same_profile (s to_space : AnySpace)
    (checkerFactory : Profile → Profile → GamutChecker)
    (cache : GamutCache) (input : List ℝ)
    (hp : to_space.profile = s.profile) :
    s.outOfGamut checkerFactory cache input to_space = (false, cache) := by
  unfold AnySpace.outOfGamut
  rw [if_pos hp]

/-- Witness for C7: same-profile spaces and an input far out of range,
under a checker factory that reports everything out of gamut. -/
theorem claim7_witness :
    spaceC.profile = spaceA.profile ∧
      spaceA.outOfGamut allOutChecker [] [(5 : ℝ), 5, 5] spaceC = (false, []) :=
  ⟨rfl, claim7_gamut_same_profile spaceA spaceC allOutChecker [] [(5 : ℝ), 5, 5] rfl⟩

/-- C8: addSpace throws on a duplicate type and otherwise appends, after
which lookup by that type returns exactly the added instance. -/
theorem claim8_registry_uniqueness (m : Manager) (s : AnySpace) :
    ((m.find s.typ).isSome = true →
      m.addSpace s = Except.error "Can not add the same color space twice.") ∧
    (m.find s.typ = none →
      ∃ m2, m.addSpace s = Except.ok m2 ∧ m2.find s.typ = some s) := by
  constructor
  · intro h
    unfold Manager.addSpace
    rw [if_pos h]
  · intro h
    refine ⟨⟨m.spaces ++ [s]⟩, ?_, ?_⟩
    · unfold Manager.addSpace
      rw [if_neg (by simp [h])]
    · unfold Manager.find at h ⊢
      simp only [List.find?_append, h, Option.none_orElse]
      simp [List.find?]

/-- Witness for C8: a duplicate registration fails, a fresh one succeeds
and is found again. -/
theorem claim8_witness :
    ((Manager.find ⟨[spaceA]⟩ spaceA.typ).isSome = true ∧
      Manager.addSpace ⟨[spaceA]⟩ spaceA =
        Except.error "Can not add the same color space twice.") ∧
    (Manager.find ⟨[]⟩ spaceA.typ = none ∧
      ∃ m2, Manager.addSpace ⟨[]⟩ spaceA = Except.ok m2 ∧
        m2.find spaceA.typ = some spaceA) :=
  ⟨⟨rfl, (claim8_registry_uniqueness ⟨[spaceA]⟩ spaceA).1 rfl⟩,
    ⟨rfl, (claim8_registry_uniqueness ⟨[]⟩ spaceA).2 rfl⟩⟩

/-- C9: isValidData accepts exactly the component count or the component
count plus one. -/
theorem claim9_isValidData_iff (s : AnySpace) (values : List ℝ) :
    s.isValidData values = true ↔
      (values.length = s.componentCount ∨ values.length = s.componentCount + 1) := by
  simp [AnySpace.isValidData]

/-- C10: registration is constrained by type only, so a space may reuse a
registered name, and lookup by name returns the first match in
registration order, ignoring later duplicates. -/
theorem claim10_name_lookup_first (m : Manager) (s : AnySpace)
    (h : m.find s.typ = none) :
    ∃ m2, m.addSpace s = Except.ok m2 ∧
      ∀ nm, m2.findName nm =
        match m.findName nm with
        | some r => some r
        | none => if s.name = nm then some s else none := by
  refine ⟨⟨m.spaces ++ [s]⟩, ?_, ?_⟩
  · unfold Manager.addSpace
    rw [if_neg (by simp [h])]
  · intro nm
    unfold Manager.findName
    simp only [List.find?_append]
    cases hfind : List.find? (fun v => v.name == nm) m.spaces with
    | some r => simp
    | none =>
      simp only [Option.none_orElse]
      by_cases hnm : s.name = nm
      · simp [List.find?, hnm]
      · simp [List.find?, beq_false_of_ne hnm, hnm]

/-- Witness for C10: a second space reusing the name of a registered one
under a different type is accepted, and name lookup keeps returning the
first registered space. -/
theorem claim10_witness :
    Manager.find ⟨[spaceA]⟩ spaceB.typ = none ∧ spaceA.name = spaceB.name ∧
      (∃ m2, Manager.addSpace ⟨[spaceA]⟩ spaceB = Except.ok m2 ∧
        ∀ nm, m2.findName nm =
          match Manager.findName ⟨[spaceA]⟩ nm with
          | some r => some r
          | none => if spaceB.name = nm then some spaceB else none) :=
  ⟨rfl, rfl, claim10_name_lookup_first ⟨[spaceA]⟩ spaceB rfl⟩

/-- C3: parsing the CSS text printed by Lab::toString reproduces the
normalized vector exactly, with or without trailing opacity, and the
chroma channels are serialized on the CSS scale -125..125 rather than the
internal -128..128 one. -/
theorem claim3_css_roundtrip (v0 v1 v2 v3 : ℚ) (opacity : Bool)
    (_h0 : 0 ≤ v0 ∧ v0 ≤ 1) (_h1 : 0 ≤ v1 ∧ v1 ≤ 1) (_h2 : 0 ≤ v2 ∧ v2 ≤ 1)
    (_h3 : 0 ≤ v3 ∧ v3 ≤ 1) :
    labParseCss (labToCss [v0, v1, v2] opacity).args = some [v0, v1, v2] ∧
    labParseCss (labToCss [v0, v1, v2, v3] true).args = some [v0, v1, v2, v3] ∧
    (labToCss [v0, v1, v2] opacity).args.get? 1 = some (v1 * 250 - 125) := by
  refine ⟨?_, ?_, ?_⟩
  · simp only [labToCss, labParseCss, append_css_value, SCALE_UP, List.isEmpty]
    simp only [Option.getD]
    norm_num
    ring_nf
    exact ⟨trivial, trivial⟩
  · simp only [labToCss, labParseCss, append_css_value, SCALE_UP, List.isEmpty]
    simp only [Option.getD]
    norm_num
    ring_nf
    exact ⟨trivial, trivial⟩
  · simp [labToCss, SCALE_UP]
    ring_nf

/-- Witness for C3 at concrete boundary-heavy channel values. -/
theorem claim3_witness :
    ((0 : ℚ) ≤ 0 ∧ (0 : ℚ) ≤ 1) ∧
      (labParseCss (labToCss [(0 : ℚ), 1/2, 1] true).args = some [(0 : ℚ), 1/2, 1] ∧
      labParseCss (labToCss [(0 : ℚ), 1/2, 1, 1/4] true).args =
        some [(0 : ℚ), 1/2, 1, 1/4] ∧
      (labToCss [(0 : ℚ), 1/2, 1] true).args.get? 1 = some ((1 : ℚ)/2 * 250 - 125)) :=
  ⟨⟨le_refl 0, by norm_num⟩,
    claim3_css_roundtrip 0 (1/2) 1 (1/4) true (by norm_num) (by norm_num)
      (by norm_num) (by norm_num)⟩

/-- Elementary bound: the exponential below one over one minus the argument. -/
theorem exp_le_inv_one_sub {x : ℝ} (h : x < 1) : Real.exp x ≤ (1 - x)⁻¹ := by
  have h1 : 0 < 1 - x := by linarith
  have h2 : 1 - x ≤ Real.exp (-x) := by
    have := Real.add_one_le_exp (-x); linarith
  have h3 : Real.exp x = (Real.exp (-x))⁻¹ := by
    rw [← Real.exp_neg, neg_neg]
  rw [h3]
  exact inv_anti₀ h1 h2

/-- Elementary bound: minus the logarithm below the inverse minus one. -/
theorem neg_log_le_inv_sub_one {x : ℝ} (hx : 0 < x) : -Real.log x ≤ x⁻¹ - 1 := by
  have := Real.log_le_sub_one_of_pos (inv_pos.mpr hx)
  rwa [Real.log_inv] at this

/-- Arithmetic core of the roundtrip error bound when the exponential
factor shrinks the value. -/
theorem near_one_decrease {f x E : ℝ} (hf0 : 0 ≤ f) (hx0 : 0 ≤ x)
    (hE_le : E ≤ 1) (hE_ge : 1 - x ≤ E) (hfx : f * x ≤ 1.05e-5) :
    |f * E - f| ≤ 1.2e-5 := by
  rw [abs_le]
  constructor <;> nlinarith

/-- Arithmetic core of the roundtrip error bound when the exponential
factor grows the value. -/
theorem near_one_increase {f x E : ℝ} (hf0 : 0 < f) (_hf1 : f ≤ 1)
    (_hx0 : 0 < x) (hx1 : x ≤ 3.9e-5) (hfx : f * x ≤ 1e-5 * (1 - f))
    (hE1 : 1 ≤ E) (hEmul : E * (1 - x) ≤ 1) :
    |f * E - f| ≤ 1.2e-5 := by
  have h1x : 0 < 1 - x := by nlinarith
  have hE_ub : E ≤ 1.00005 := by nlinarith
  rw [abs_le]
  constructor
  · nlinarith
  · have hstep1 : f * E - f ≤ f * E * x := by nlinarith
    have hfx0 : (0 : ℝ) ≤ f * x := by positivity
    have hstep3 : E * (f * x) ≤ 1.00005 * (1e-5 * (1 - f)) :=
      mul_le_mul hE_ub hfx hfx0 (by norm_num)
    nlinarith

/-- The real power 0.99999 written through the exponential: the exact
exponent produced by composing the cube with the 0.33333 exponent of
Lab::fromXYZ. -/
theorem rpow_0_99999 {f : ℝ} (hf0 : (0 : ℝ) < f) :
    f ^ ((0.99999 : ℝ)) = f * Real.exp (-(1e-5 * Real.log f)) := by
  have e1 : (0.99999 : ℝ) = 1 - 1e-5 := by norm_num
  rw [Real.rpow_def_of_pos hf0, e1]
  rw [show Real.log f * (1 - 1e-5) = Real.log f + -(1e-5 * Real.log f) by ring]
  rw [Real.exp_add, Real.exp_log hf0]

/-- On the cube branch of the roundtrip, raising to 0.99999 moves a value
of the Lab f-range by at most 1.2e-5. -/
theorem rpow_near_id {f : ℝ} (h1 : 0.206892 ≤ f) (h2 : f ≤ 1.64) :
    |f ^ ((0.99999 : ℝ)) - f| ≤ 1.2e-5 := by
  have hf0 : (0 : ℝ) < f := lt_of_lt_of_le (by norm_num) h1
  rw [rpow_0_99999 hf0]
  rcases le_or_lt 1 f with hf1 | hf1
  · have hlog0 : 0 ≤ Real.log f := Real.log_nonneg hf1
    have hlogub : Real.log f ≤ 0.64 :=
      le_trans (Real.log_le_sub_one_of_pos hf0) (by linarith)
    have hx0 : 0 ≤ (1e-5 : ℝ) * Real.log f := by positivity
    have hexp_le : Real.exp (-(1e-5 * Real.log f)) ≤ 1 :=
      Real.exp_le_one_iff.mpr (by linarith)
    have hexp_ge : 1 - (1e-5 : ℝ) * Real.log f ≤ Real.exp (-(1e-5 * Real.log f)) := by
      have := Real.add_one_le_exp (-(1e-5 * Real.log f)); linarith
    have hflog : f * ((1e-5 : ℝ) * Real.log f) ≤ 1.05e-5 := by
      have hm : f * Real.log f ≤ 1.64 * 0.64 :=
        mul_le_mul h2 hlogub hlog0 (by norm_num)
      nlinarith
    exact near_one_decrease hf0.le hx0 hexp_le hexp_ge hflog
  · have hlogneg : Real.log f < 0 := Real.log_neg hf0 hf1
    have hy_ub : -Real.log f ≤ f⁻¹ - 1 := neg_log_le_inv_sub_one hf0
    have hfinv : f⁻¹ ≤ 4.834 := by
      have h3 : f⁻¹ ≤ (0.206892 : ℝ)⁻¹ := inv_anti₀ (by norm_num) h1
      have h4 : ((0.206892 : ℝ))⁻¹ ≤ 4.834 := by norm_num
      linarith
    have hy0 : 0 < -Real.log f := by linarith
    have hx0 : 0 < (1e-5 : ℝ) * -Real.log f := by positivity
    have hx1 : (1e-5 : ℝ) * -Real.log f ≤ 3.9e-5 := by nlinarith
    have hfx : f * ((1e-5 : ℝ) * -Real.log f) ≤ 1e-5 * (1 - f) := by
      have h5 : f * -Real.log f ≤ f * (f⁻¹ - 1) :=
        mul_le_mul_of_nonneg_left hy_ub hf0.le
      have h6 : f * (f⁻¹ - 1) = 1 - f := by field_simp
      nlinarith
    have hE1 : 1 ≤ Real.exp ((1e-5 : ℝ) * -Real.log f) := by
      have := Real.add_one_le_exp ((1e-5 : ℝ) * -Real.log f); linarith
    have hEmul : Real.exp ((1e-5 : ℝ) * -Real.log f) *
        (1 - (1e-5 : ℝ) * -Real.log f) ≤ 1 := by
      have hlt : (1e-5 : ℝ) * -Real.log f < 1 := by linarith
      have hub := exp_le_inv_one_sub hlt
      have h1x : 0 < 1 - (1e-5 : ℝ) * -Real.log f := by linarith
      have := mul_le_mul_of_nonneg_right hub h1x.le
      rwa [inv_mul_cancel₀ (ne_of_gt h1x)] at this
    have hgoal := near_one_increase hf0 hf1.le hx0 hx1 hfx hE1 hEmul
    rw [show -(1e-5 * Real.log f) = (1e-5 : ℝ) * -Real.log f by ring]
    exact hgoal

/-- Cube-root bound from a cube bound, upper direction. -/
theorem rpow_third_le {t r : ℝ} (ht : 0 ≤ t) (hr : 0 ≤ r) (h : t ≤ r ^ (3 : ℕ)) :
    t ^ ((1/3 : ℝ)) ≤ r := by
  have key : ((r ^ (3 : ℕ) : ℝ)) ^ ((1/3 : ℝ)) = r := by
    rw [← Real.rpow_natCast r 3, ← Real.rpow_mul hr]
    norm_num
  calc t ^ ((1/3 : ℝ)) ≤ (r ^ (3 : ℕ)) ^ ((1/3 : ℝ)) :=
        Real.rpow_le_rpow ht h (by norm_num)
    _ = r := key

/-- Cube-root bound from a cube bound, lower direction. -/
theorem le_rpow_third {t r : ℝ} (hr : 0 ≤ r) (h : r ^ (3 : ℕ) ≤ t) :
    r ≤ t ^ ((1/3 : ℝ)) := by
  have key : ((r ^ (3 : ℕ) : ℝ)) ^ ((1/3 : ℝ)) = r := by
    rw [← Real.rpow_natCast r 3, ← Real.rpow_mul hr]
    norm_num
  calc r = (r ^ (3 : ℕ)) ^ ((1/3 : ℝ)) := key.symm
    _ ≤ t ^ ((1/3 : ℝ)) := Real.rpow_le_rpow (by positivity) h (by norm_num)

/-- Bounds for the 0.33333 power on the narrow band just above the
0.008856 threshold, where the forward linear branch meets the backward
cube-root branch. -/
theorem sliver_bounds {t : ℝ} (h1 : 0.008856 < t) (h2 : t ≤ 0.008857) :
    0.206892 ≤ t ^ ((0.33333 : ℝ)) ∧ t ^ ((0.33333 : ℝ)) ≤ 0.2069084 := by
  have ht0 : (0 : ℝ) < t := by nlinarith
  have ht1 : t ≤ 1 := by nlinarith
  have hthird_ge : (0.206892 : ℝ) ≤ t ^ ((1/3 : ℝ)) := by
    apply le_rpow_third (by norm_num)
    nlinarith [h1]
  have hthird_le : t ^ ((1/3 : ℝ)) ≤ 0.206905 := by
    apply rpow_third_le ht0.le (by norm_num)
    nlinarith [h2]
  constructor
  · calc (0.206892 : ℝ) ≤ t ^ ((1/3 : ℝ)) := hthird_ge
      _ ≤ t ^ ((0.33333 : ℝ)) :=
        Real.rpow_le_rpow_of_exponent_ge ht0 ht1 (by norm_num)
  · have hsplit : t ^ ((0.33333 : ℝ)) =
        t ^ ((1/3 : ℝ)) * Real.exp ((1/300000 : ℝ) * -Real.log t) := by
      rw [Real.rpow_def_of_pos ht0, Real.rpow_def_of_pos ht0, ← Real.exp_add]
      congr 1
      ring
    have hneg : -Real.log t ≤ 4.8521 := by
      have htinv : t⁻¹ ≤ 128 := by
        have hi : t⁻¹ ≤ (0.008856 : ℝ)⁻¹ := inv_anti₀ (by norm_num) h1.le
        have : ((0.008856 : ℝ))⁻¹ ≤ 128 := by norm_num
        linarith
      have hlog : Real.log t⁻¹ ≤ Real.log 128 :=
        Real.log_le_log (inv_pos.mpr ht0) htinv
      rw [Real.log_inv] at hlog
      have h128 : Real.log (128 : ℝ) = 7 * Real.log 2 := by
        rw [show (128 : ℝ) = 2 ^ (7 : ℕ) by norm_num, Real.log_pow]
        norm_num
      have hl2 := Real.log_two_lt_d9
      rw [h128] at hlog
      linarith
    have hexp_ub : Real.exp ((1/300000 : ℝ) * -Real.log t) ≤ 1.0000162 := by
      have harg : (1/300000 : ℝ) * -Real.log t ≤ 1.61737e-5 := by linarith
      have hmono : Real.exp ((1/300000 : ℝ) * -Real.log t) ≤ Real.exp (1.61737e-5) :=
        Real.exp_le_exp.mpr harg
      have hbound : Real.exp ((1.61737e-5 : ℝ)) ≤ (1 - 1.61737e-5)⁻¹ :=
        exp_le_inv_one_sub (by norm_num)
      have : ((1 : ℝ) - 1.61737e-5)⁻¹ ≤ 1.0000162 := by norm_num
      linarith
    rw [hsplit]
    have hth0 : (0 : ℝ) ≤ t ^ ((1/3 : ℝ)) := Real.rpow_nonneg ht0.le _
    calc t ^ ((1/3 : ℝ)) * Real.exp ((1/300000 : ℝ) * -Real.log t)
        ≤ 0.206905 * 1.0000162 :=
          mul_le_mul hthird_le hexp_ub (Real.exp_pos _).le (by norm_num)
      _ ≤ 0.2069084 := by norm_num

/-- Per-channel roundtrip of Lab::fromXYZ after Lab::toXYZ: the f-value is
reproduced within 2e-5 over the whole range reachable from valid
normalized Lab inputs. -/
theorem channel_roundtrip {f : ℝ} (_hlo : -0.51 ≤ f) (hhi : f ≤ 1.64) :
    |Lab.labChannel (Lab.xyzChannel f) - f| ≤ 2e-5 := by
  unfold Lab.xyzChannel
  by_cases hcube : f ^ (3 : ℕ) > 0.008856
  · rw [if_pos hcube]
    have hf0 : (0 : ℝ) < f := by
      by_contra hc
      push_neg at hc
      have h3 : f ^ (3 : ℕ) ≤ 0 := Odd.pow_nonpos (by decide) hc
      nlinarith
    have hfge : (0.206892 : ℝ) ≤ f := by
      by_contra hc
      push_neg at hc
      have hmono : f ^ (3 : ℕ) ≤ (0.206892 : ℝ) ^ (3 : ℕ) :=
        pow_le_pow_left₀ hf0.le hc.le 3
      have hn : ((0.206892 : ℝ)) ^ (3 : ℕ) ≤ 0.008856 := by norm_num
      linarith
    unfold Lab.labChannel
    rw [if_pos hcube]
    have hconv : ((f ^ (3 : ℕ) : ℝ)) ^ ((0.33333 : ℝ)) = f ^ ((0.99999 : ℝ)) := by
      rw [← Real.rpow_natCast f 3, ← Real.rpow_mul hf0.le]
      norm_num
    rw [hconv]
    exact le_trans (rpow_near_id hfge hhi) (by norm_num)
  · rw [if_neg hcube]
    push_neg at hcube
    unfold Lab.labChannel
    by_cases ht : (f - 16.0 / 116.0) / 7.787 > 0.008856
    · rw [if_pos ht]
      have hfub : f ≤ 0.2069 := by
        by_contra hc
        push_neg at hc
        have hmono : (0.2069 : ℝ) ^ (3 : ℕ) ≤ f ^ (3 : ℕ) :=
          pow_le_pow_left₀ (by norm_num) hc.le 3
        have hn : (0.008856 : ℝ) < (0.2069 : ℝ) ^ (3 : ℕ) := by norm_num
        linarith
      have ht2 : (0.008856 : ℝ) * 7.787 < f - 16.0 / 116.0 :=
        (lt_div_iff₀ (by norm_num)).mp ht
      have hflb : (0.2068927 : ℝ) ≤ f := by nlinarith
      have htub : (f - 16.0 / 116.0) / 7.787 ≤ 0.008857 := by
        rw [div_le_iff₀ (by norm_num : (0 : ℝ) < 7.787)]
        nlinarith
      obtain ⟨hl, hu⟩ := sliver_bounds ht htub
      rw [abs_le]
      constructor <;> linarith
    · rw [if_neg ht]
      have hexact : 7.787 * ((f - 16.0 / 116.0) / 7.787) + 16.0 / 116.0 = f := by
        rw [mul_div_cancel₀ _ (by norm_num : (7.787 : ℝ) ≠ 0)]
        ring
      rw [hexact]
      simp
      norm_num

/-- Lightness roundtrip: the luma branch of Lab::fromXYZ applied to the
encoded Y channel returns within 2e-3 of the scaled lightness. -/
theorem luma_roundtrip {fy : ℝ} (h1 : 4/29 ≤ fy) (h2 : fy ≤ 1) :
    |Lab.lumaChannel (Lab.xyzChannel fy) - (116 * fy - 16)| ≤ 2e-3 := by
  unfold Lab.xyzChannel
  by_cases hcube : fy ^ (3 : ℕ) > 0.008856
  · rw [if_pos hcube]
    unfold Lab.lumaChannel
    rw [if_pos hcube]
    have hf0 : (0 : ℝ) < fy := lt_of_lt_of_le (by norm_num) h1
    have hfge : (0.206892 : ℝ) ≤ fy := by
      by_contra hc
      push_neg at hc
      have hmono : fy ^ (3 : ℕ) ≤ (0.206892 : ℝ) ^ (3 : ℕ) :=
        pow_le_pow_left₀ hf0.le hc.le 3
      have hn : ((0.206892 : ℝ)) ^ (3 : ℕ) ≤ 0.008856 := by norm_num
      linarith
    have hconv : ((fy ^ (3 : ℕ) : ℝ)) ^ ((0.33333 : ℝ)) = fy ^ ((0.99999 : ℝ)) := by
      rw [← Real.rpow_natCast fy 3, ← Real.rpow_mul hf0.le]
      norm_num
    rw [hconv]
    have hnear := rpow_near_id hfge (le_trans h2 (by norm_num))
    have hrw : 116 * fy ^ ((0.99999 : ℝ)) - 16 - (116 * fy - 16) =
        116 * (fy ^ ((0.99999 : ℝ)) - fy) := by ring
    rw [hrw, abs_mul]
    rw [show |(116 : ℝ)| = 116 from abs_of_pos (by norm_num)]
    nlinarith [hnear, abs_nonneg (fy ^ ((0.99999 : ℝ)) - fy)]
  · rw [if_neg hcube]
    push_neg at hcube
    unfold Lab.lumaChannel
    by_cases ht : (fy - 16.0 / 116.0) / 7.787 > 0.008856
    · rw [if_pos ht]
      have hfub : fy ≤ 0.2069 := by
        by_contra hc
        push_neg at hc
        have hmono : (0.2069 : ℝ) ^ (3 : ℕ) ≤ fy ^ (3 : ℕ) :=
          pow_le_pow_left₀ (by norm_num) hc.le 3
        have hn : (0.008856 : ℝ) < (0.2069 : ℝ) ^ (3 : ℕ) := by norm_num
        linarith
      have ht2 : (0.008856 : ℝ) * 7.787 < fy - 16.0 / 116.0 :=
        (lt_div_iff₀ (by norm_num)).mp ht
      have hflb : (0.2068927 : ℝ) ≤ fy := by nlinarith
      have htub : (fy - 16.0 / 116.0) / 7.787 ≤ 0.008857 := by
        rw [div_le_iff₀ (by norm_num : (0 : ℝ) < 7.787)]
        nlinarith
      obtain ⟨hl, hu⟩ := sliver_bounds ht htub
      rw [abs_le]
      constructor <;> linarith
    · rw [if_neg ht]
      push_neg at ht
      have hd0 : 0 ≤ (fy - 16.0 / 116.0) / 7.787 := by
        apply div_nonneg _ (by norm_num)
        nlinarith
      have hDeq : 7.787 * ((fy - 16.0 / 116.0) / 7.787) = fy - 16.0 / 116.0 :=
        mul_div_cancel₀ _ (by norm_num : (7.787 : ℝ) ≠ 0)
      rw [abs_le]
      constructor <;> nlinarith [hDeq, ht, hd0]

/-- Symbolic unfolding of the Lab decode after encode composition: the
illuminant factors cancel and each output channel is a scaled roundtrip of
one f-value. -/
theorem lab_roundtrip_eq (a0 a1 a2 y f0 f2 : ℝ) (rest : List ℝ)
    (hy : y = (SCALE_UP a0 0 LUMA_SCALE + 16.0) / 116.0)
    (hf0 : f0 = SCALE_UP a1 MIN_SCALE MAX_SCALE / 500.0 + y)
    (hf2 : f2 = y - SCALE_UP a2 MIN_SCALE MAX_SCALE / 200.0) :
    Lab.fromXYZ (Lab.toXYZ (a0 :: a1 :: a2 :: rest)) =
      SCALE_DOWN (Lab.lumaChannel (Lab.xyzChannel y)) 0 LUMA_SCALE ::
      SCALE_DOWN (500 * (Lab.labChannel (Lab.xyzChannel f0) -
        Lab.labChannel (Lab.xyzChannel y))) MIN_SCALE MAX_SCALE ::
      SCALE_DOWN (200 * (Lab.labChannel (Lab.xyzChannel y) -
        Lab.labChannel (Lab.xyzChannel f2))) MIN_SCALE MAX_SCALE :: rest := by
  subst hy hf0 hf2
  simp only [Lab.toXYZ, Lab.scaleUp, Lab.fromXYZ, Lab.scaleDown]
  have c0 : ∀ u : ℝ, u * illuminant_d65_0 / illuminant_d65_0 = u := fun u =>
    mul_div_cancel_right₀ u (by norm_num [illuminant_d65_0])
  have c1 : ∀ u : ℝ, u * illuminant_d65_1 / illuminant_d65_1 = u := fun u =>
    mul_div_cancel_right₀ u (by norm_num [illuminant_d65_1])
  have c2 : ∀ u : ℝ, u * illuminant_d65_2 / illuminant_d65_2 = u := fun u =>
    mul_div_cancel_right₀ u (by norm_num [illuminant_d65_2])
  simp only [c0, c1, c2]

/-- C2, amended: for every valid normalized Lab vector the decode after
encode roundtrip reproduces every channel within 1e-4 (the 1e-9 tolerance
of the original claim fails, see the counterexample). -/
theorem claim2_amended_roundtrip (v0 v1 v2 : ℝ) (rest : List ℝ)
    (h00 : 0 ≤ v0) (h01 : v0 ≤ 1) (h10 : 0 ≤ v1) (h11 : v1 ≤ 1)
    (h20 : 0 ≤ v2) (h21 : v2 ≤ 1) :
    ∃ w0 w1 w2,
      Lab.fromXYZ (Lab.toXYZ (v0 :: v1 :: v2 :: rest)) = w0 :: w1 :: w2 :: rest ∧
      |w0 - v0| ≤ 1e-4 ∧ |w1 - v1| ≤ 1e-4 ∧ |w2 - v2| ≤ 1e-4 := by
  obtain ⟨y, hydef⟩ : ∃ t : ℝ, t = (SCALE_UP v0 0 LUMA_SCALE + 16.0) / 116.0 :=
    ⟨_, rfl⟩
  obtain ⟨f0, hf0def⟩ : ∃ t : ℝ, t = SCALE_UP v1 MIN_SCALE MAX_SCALE / 500.0 + y :=
    ⟨_, rfl⟩
  obtain ⟨f2, hf2def⟩ : ∃ t : ℝ, t = y - SCALE_UP v2 MIN_SCALE MAX_SCALE / 200.0 :=
    ⟨_, rfl⟩
  have hkey := lab_roundtrip_eq v0 v1 v2 y f0 f2 rest hydef hf0def hf2def
  -- algebraic identities linking the f-values back to the channels
  have hyeq : 116 * y - 16 = 100 * v0 := by
    rw [hydef]
    simp only [SCALE_UP, LUMA_SCALE]
    field_simp
    ring
  have hAeq : 500 * (f0 - y) = v1 * 256 - 128 := by
    rw [hf0def]
    simp only [SCALE_UP, MIN_SCALE, MAX_SCALE]
    field_simp
    ring
  have hBeq : 200 * (y - f2) = v2 * 256 - 128 := by
    rw [hf2def]
    simp only [SCALE_UP, MIN_SCALE, MAX_SCALE]
    field_simp
    ring
  -- interval bounds for the f-values
  have hy_lb : 4/29 ≤ y := by
    rw [hydef]; simp only [SCALE_UP, LUMA_SCALE]
    rw [le_div_iff₀ (by norm_num : (0:ℝ) < 116.0)]
    nlinarith
  have hy_ub : y ≤ 1 := by
    rw [hydef]; simp only [SCALE_UP, LUMA_SCALE]
    rw [div_le_one (by norm_num : (0:ℝ) < 116.0)]
    nlinarith
  have hf0_lb : -0.51 ≤ f0 := by
    have : -(0.256 : ℝ) ≤ SCALE_UP v1 MIN_SCALE MAX_SCALE / 500.0 := by
      simp only [SCALE_UP, MIN_SCALE, MAX_SCALE]
      rw [le_div_iff₀ (by norm_num : (0:ℝ) < 500.0)]
      nlinarith
    rw [hf0def]; nlinarith
  have hf0_ub : f0 ≤ 1.64 := by
    have : SCALE_UP v1 MIN_SCALE MAX_SCALE / 500.0 ≤ (0.256 : ℝ) := by
      simp only [SCALE_UP, MIN_SCALE, MAX_SCALE]
      rw [div_le_iff₀ (by norm_num : (0:ℝ) < 500.0)]
      nlinarith
    rw [hf0def]; nlinarith
  have hf2_lb : -0.51 ≤ f2 := by
    have : SCALE_UP v2 MIN_SCALE MAX_SCALE / 200.0 ≤ (0.64 : ℝ) := by
      simp only [SCALE_UP, MIN_SCALE, MAX_SCALE]
      rw [div_le_iff₀ (by norm_num : (0:ℝ) < 200.0)]
      nlinarith
    rw [hf2def]; nlinarith
  have hf2_ub : f2 ≤ 1.64 := by
    have : -(0.64 : ℝ) ≤ SCALE_UP v2 MIN_SCALE MAX_SCALE / 200.0 := by
      simp only [SCALE_UP, MIN_SCALE, MAX_SCALE]
      rw [le_div_iff₀ (by norm_num : (0:ℝ) < 200.0)]
      nlinarith
    rw [hf2def]; nlinarith
  -- per-channel roundtrip errors
  have eL := luma_roundtrip hy_lb hy_ub
  have eY := channel_roundtrip (by linarith : -0.51 ≤ y) (by linarith : y ≤ 1.64)
  have eA := channel_roundtrip hf0_lb hf0_ub
  have eB := channel_roundtrip hf2_lb hf2_ub
  rw [abs_le] at eL eY eA eB
  generalize hLgen : Lab.lumaChannel (Lab.xyzChannel y) = L at eL hkey
  generalize hU0gen : Lab.labChannel (Lab.xyzChannel f0) = U0 at eA hkey
  generalize hU1gen : Lab.labChannel (Lab.xyzChannel y) = U1 at eY hkey
  generalize hU2gen : Lab.labChannel (Lab.xyzChannel f2) = U2 at eB hkey
  refine ⟨_, _, _, hkey, ?_, ?_, ?_⟩
  · simp only [SCALE_DOWN, LUMA_SCALE]
    rw [abs_le]
    constructor <;> linarith [eL.1, eL.2, hyeq]
  · simp only [SCALE_DOWN, MIN_SCALE, MAX_SCALE]
    rw [abs_le]
    constructor <;> linarith [eA.1, eA.2, eY.1, eY.2, hAeq]
  · simp only [SCALE_DOWN, MIN_SCALE, MAX_SCALE]
    rw [abs_le]
    constructor <;> linarith [eY.1, eY.2, eB.1, eB.2, hBeq]

/-- C2, counterexample: at the valid normalized Lab vector with every
channel one half, the decode after encode roundtrip moves the lightness
channel by more than 1e-9, because the source uses the exponent 0.33333
rather than one third, so the claim at tolerance 1e-9 is false. -/
theorem claim2_counterexample :
    1e-9 < |(Lab.fromXYZ (Lab.toXYZ [1/2, 1/2, 1/2])).headI - 1/2| := by
  have hc : (0 : ℝ) < 33/58 := by norm_num
  have hkey := lab_roundtrip_eq (1/2) (1/2) (1/2) ((33 : ℝ)/58) ((33 : ℝ)/58)
    ((33 : ℝ)/58) []
    (by norm_num [SCALE_UP, LUMA_SCALE])
    (by norm_num [SCALE_UP, MIN_SCALE, MAX_SCALE])
    (by norm_num [SCALE_UP, MIN_SCALE, MAX_SCALE])
  rw [show [(1 : ℝ)/2, 1/2, 1/2] = (1 : ℝ)/2 :: 1/2 :: 1/2 :: [] from rfl] at hkey ⊢
  rw [hkey]
  simp only [List.headI]
  have hx : Lab.xyzChannel ((33 : ℝ)/58) = ((33 : ℝ)/58) ^ (3 : ℕ) := by
    unfold Lab.xyzChannel
    rw [if_pos (by norm_num)]
  have hlum : Lab.lumaChannel (((33 : ℝ)/58) ^ (3 : ℕ)) =
      116 * (((33 : ℝ)/58) ^ (3 : ℕ)) ^ ((0.33333 : ℝ)) - 16 := by
    unfold Lab.lumaChannel
    rw [if_pos (by norm_num)]
  have hconv : ((((33 : ℝ)/58) ^ (3 : ℕ))) ^ ((0.33333 : ℝ)) =
      ((33 : ℝ)/58) ^ ((0.99999 : ℝ)) := by
    rw [← Real.rpow_natCast ((33 : ℝ)/58) 3, ← Real.rpow_mul hc.le]
    norm_num
  have hlog : -Real.log ((33 : ℝ)/58) ≥ 25/58 := by
    have := Real.log_le_sub_one_of_pos hc
    have h2 : (33 : ℝ)/58 - 1 = -(25/58) := by norm_num
    linarith
  have hexp : Real.exp (-(1e-5 * Real.log ((33 : ℝ)/58))) ≥ 1 + 1e-5 * (25/58) := by
    have harg : -(1e-5 * Real.log ((33 : ℝ)/58)) ≥ 1e-5 * (25/58) := by nlinarith
    have := Real.add_one_le_exp (-(1e-5 * Real.log ((33 : ℝ)/58)))
    linarith
  have hQ : ((33 : ℝ)/58) ^ ((0.99999 : ℝ)) ≥ (33/58) * (1 + 1e-5 * (25/58)) := by
    rw [rpow_0_99999 hc]
    exact mul_le_mul_of_nonneg_left hexp hc.le
  rw [hx, hlum, hconv]
  simp only [SCALE_DOWN, LUMA_SCALE]
  have hfinal : (116 * ((33 : ℝ)/58) ^ ((0.99999 : ℝ)) - 16 - 0) / (100 - 0) - 1/2
      ≥ 2.8e-6 := by
    have h66 : (116 : ℝ) * (33/58) = 66 := by norm_num
    nlinarith [hQ]
  calc (1e-9 : ℝ) < 2.8e-6 := by norm_num
    _ ≤ (116 * ((33 : ℝ)/58) ^ ((0.99999 : ℝ)) - 16 - 0) / (100 - 0) - 1/2 := hfinal
    _ ≤ |(116 * ((33 : ℝ)/58) ^ ((0.99999 : ℝ)) - 16 - 0) / (100 - 0) - 1/2| :=
      le_abs_self _

/-- Witness for the amended C2 at the all-halves vector. -/
theorem claim2_witness :
    ((0 : ℝ) ≤ 1/2 ∧ (1 : ℝ)/2 ≤ 1) ∧
      (∃ w0 w1 w2,
        Lab.fromXYZ (Lab.toXYZ ((1 : ℝ)/2 :: 1/2 :: 1/2 :: [])) =
          w0 :: w1 :: w2 :: [] ∧
        |w0 - 1/2| ≤ 1e-4 ∧ |w1 - 1/2| ≤ 1e-4 ∧ |w2 - 1/2| ≤ 1e-4) :=
  ⟨⟨by norm_num, by norm_num⟩,
    claim2_amended_roundtrip (1/2) (1/2) (1/2) [] (by norm_num) (by norm_num)
      (by norm_num) (by norm_num) (by norm_num) (by norm_num)⟩

end Colors
